import Mathlib

/-!
Verification of the language-descriptor registry of
coalib/bearlib/languages/Language.py (and the immutability helper in
coalib/bearlib/aspects/base.py) via a shallow embedding in Lean 4.

Modelling conventions:
* Python numbers (the float version literals such as 3.6, and ints such
  as 3) are modelled as rationals.  The runtime distinction between the
  int type and the float type, on which limit_versions dispatches via
  isinstance(limit, int), is modelled by the sum type PyNum.
* Exceptions are modelled with Except PyErr.
* String helpers (the regex split, str.rsplit, float conversion and str
  of a float) are implemented structurally on character lists; float
  conversion models the plain decimal-literal fragment of the builtin
  float (no sign, exponent, underscores, inf or nan, no surrounding
  whitespace), which covers every value this module works with.
-/

/-- Python exceptions raised by the modelled code. -/
inductive PyErr where
  | valueError (msg : String)
  | attributeError
  | assertionError
deriving DecidableEq

instance {ε α : Type} [DecidableEq ε] [DecidableEq α] :
    DecidableEq (Except ε α) := fun x y =>
  match x, y with
  | .ok a, .ok b =>
    if h : a = b then isTrue (by rw [h]) else isFalse (by simp [h])
  | .ok _, .error _ => isFalse (by simp)
  | .error _, .ok _ => isFalse (by simp)
  | .error e, .error f =>
    if h : e = f then isTrue (by rw [h]) else isFalse (by simp [h])

/-- The relational operators passed to limit_versions
(operator.gt, lt, ge, le, eq, ne). -/
inductive PyOp where
  | gt | lt | ge | le | eq | ne
deriving DecidableEq

/-- Evaluation of a relational operator on two numbers. -/
def PyOp.eval : PyOp → ℚ → ℚ → Bool
  | .gt, a, b => decide (a > b)
  | .lt, a, b => decide (a < b)
  | .ge, a, b => decide (a ≥ b)
  | .le, a, b => decide (a ≤ b)
  | .eq, a, b => decide (a = b)
  | .ne, a, b => decide (a ≠ b)

/-- A Python number together with its runtime type: either an int or a
float.  limit_versions dispatches on this via isinstance(limit, int). -/
inductive PyNum where
  | int (n : ℤ)
  | float (q : ℚ)
deriving DecidableEq

/-- Python int(x) on a number: truncation toward zero. -/
def pyInt (q : ℚ) : ℤ := q.num.tdiv q.den

/-- Numeric value of a list of decimal digit characters. -/
def natOfDigits (cs : List Char) : ℕ :=
  cs.foldl (fun n c => n * 10 + (c.toNat - 48)) 0

/-- Python builtin float on a string, restricted to plain decimal
literals: digits, digits.digits, digits. or .digits.  Returns none when
the string is not such a literal (Python raises ValueError there).
The value is produced with Rat.divInt so that concrete instances of the
model evaluate inside the kernel. -/
def pyFloat? (s : String) : Option ℚ :=
  let cs := s.toList
  let ip := cs.takeWhile (fun c => c != '.')
  let rest := cs.dropWhile (fun c => c != '.')
  match rest with
  | [] =>
    if !ip.isEmpty && ip.all Char.isDigit then
      some (Rat.divInt (natOfDigits ip) 1)
    else none
  | _ :: fp =>
    if ip.all Char.isDigit && fp.all Char.isDigit &&
        !(ip.isEmpty && fp.isEmpty) then
      some (Rat.divInt (natOfDigits ip * 10 ^ fp.length + natOfDigits fp)
        (10 ^ fp.length))
    else none

/-- Split a character list at every comma (the comma is consumed).
Always returns at least one piece. -/
def splitCommaChars : List Char → List (List Char)
  | [] => [[]]
  | c :: cs =>
    let r := splitCommaChars cs
    if c = ',' then [] :: r
    else
      match r with
      | p :: ps => (c :: p) :: ps
      | [] => [[c]]

/-- Model of re.split with the pattern comma-then-whitespace: the
separator is a comma together with the whitespace run following it, so
every piece after the first loses its leading whitespace. -/
def splitCommaWS (s : String) : List String :=
  match splitCommaChars s.toList with
  | [] => []
  | p :: ps =>
    String.mk p :: ps.map (fun cs => String.mk (cs.dropWhile Char.isWhitespace))

/-- Remove trailing whitespace of a character list. -/
def dropTrailingWS (cs : List Char) : List Char :=
  (cs.reverse.dropWhile Char.isWhitespace).reverse

/-- Model of str.rsplit(maxsplit=1) followed by unpacking into exactly
two names: splits at the last whitespace run (trailing whitespace
ignored); none when fewer than two fields result, in which case the
Python unpacking raises ValueError before binding any name. -/
def rsplit1 (s : String) : Option (String × String) :=
  let cs := dropTrailingWS s.toList
  let rev := cs.reverse
  let lastRev := rev.takeWhile (fun c => !c.isWhitespace)
  let beforeRev := (rev.dropWhile (fun c => !c.isWhitespace)).dropWhile
    Char.isWhitespace
  if beforeRev.isEmpty then none
  else some (String.mk beforeRev.reverse, String.mk lastRev.reverse)

/-- Python list(map(float, tokens)): converts left to right, raising at
the first token that is not a float literal. -/
def floatList : List String → Except PyErr (List ℚ)
  | [] => .ok []
  | t :: ts =>
    match pyFloat? t with
    | none => .error (.valueError ("could not convert string to float: " ++ t))
    | some v =>
      match floatList ts with
      | .ok vs => .ok (v :: vs)
      | .error e => .error e

/-- parse_lang_str from Language.py: split on commas with trailing
whitespace, convert the tail tokens to floats, then try to split a
trailing version off the first token.  Note the faithful modelling of
the tuple unpacking inside the try block: the name is rebound to the
shortened prefix before the float conversion of the trailing word can
fail, so the shortened name survives even when that conversion fails. -/
def parse_lang_str (string : String) : Except PyErr (String × List ℚ) :=
  match splitCommaWS string with
  | [] => .error .assertionError
  | name :: strVersions =>
    match floatList strVersions with
    | .error e => .error e
    | .ok versions =>
      match rsplit1 name with
      | none => .ok (name, versions)
      | some (shortName, trailing) =>
        match pyFloat? trailing with
        | some version => .ok (shortName, version :: versions)
        | none => .ok (shortName, versions)

/-- Python str.lower, implemented structurally (ASCII case folding via
Char.toLower, which is all the registered names use). -/
def strLower (s : String) : String :=
  String.mk (s.toList.map Char.toLower)

/-- Pad a digit string with leading zeros to d characters. -/
def padZeros (d : ℕ) (s : String) : String :=
  String.mk (List.replicate (d - s.length) '0') ++ s

/-- Python str on a float: shortest decimal rendering, with at least one
fractional digit (str(3.0) is the string 3.0).  Only used on the
non-negative decimal values occurring as version numbers. -/
def pyStr (q : ℚ) : String :=
  if q.den = 1 then toString q.num ++ ".0"
  else
    match (List.range 30).find?
        (fun k => (Rat.divInt (q.num * 10 ^ (k + 1)) q.den).den = 1) with
    | none => toString q.num ++ "/" ++ toString q.den
    | some k =>
      let d := k + 1
      let m := (Rat.divInt (q.num * 10 ^ d) q.den).num.toNat
      toString (m / 10 ^ d) ++ "." ++ padZeros d (toString (m % 10 ^ d))

/-- A registered language class: the Descriptor Type of the spec.  The
decorator stores the declared qualname, the declaration name, the
aliases and the version tuple (sorted at registration time). -/
structure LangType where
  qualname : String
  name : String
  aliases : List String
  versions : List ℚ
deriving DecidableEq

/-- A Language instance: it is bound to its class (Python type(self))
and carries its own versions sequence. -/
structure Lang where
  cls : LangType
  versions : List ℚ
deriving DecidableEq

/-- Language.__init__: asserts that every explicit version is a member
of the class versions; with no explicit versions the instance receives
the full class tuple, otherwise the sorted explicit versions. -/
def Language.init (cls : LangType) (versions : List ℚ) : Except PyErr Lang :=
  if versions.all (fun version => decide (version ∈ cls.versions)) then
    if versions.isEmpty then .ok ⟨cls, cls.versions⟩
    else .ok ⟨cls, List.insertionSort (· ≤ ·) versions⟩
  else .error .assertionError

/-- Language.__str__: qualname, a space, then the comma-joined versions. -/
def Language.str (self : Lang) : String :=
  self.cls.qualname ++ " " ++ String.intercalate ", " (self.versions.map pyStr)

/-- The list comprehension inside limit_versions: when the limit is an
int the candidate version is truncated with int() before comparing,
otherwise the raw value is compared. -/
def limitKept (language : Lang) (limit : PyNum) (op : PyOp) : List ℚ :=
  match limit with
  | .int n =>
    language.versions.filter (fun version => op.eval (pyInt version : ℚ) (n : ℚ))
  | .float q => language.versions.filter (fun version => op.eval version q)

/-- limit_versions from Language.py: filter the versions of the
instance, raise ValueError when nothing is left, otherwise build a new
instance of the same class from the kept versions. -/
def limit_versions (language : Lang) (limit : PyNum) (op : PyOp) :
    Except PyErr Lang :=
  if (limitKept language limit op).isEmpty then
    .error (.valueError "No versions left")
  else Language.init language.cls (limitKept language limit op)

/-- LanguageMeta.__gt__ and friends: class-level comparisons construct
the default instance with cls() and delegate to the instance operator. -/
def LanguageMeta.compareOp (cls : LangType) (limit : PyNum) (op : PyOp) :
    Except PyErr Lang :=
  match Language.init cls [] with
  | .error e => .error e
  | .ok inst => limit_versions inst limit op

/-- Truthiness of the Python expression operator.eq(version, other) when
other is a Language instance: float.__eq__ answers NotImplemented, so
the reflected Language.__eq__(other, version) runs, which is
limit_versions(other, version, eq); a returned instance is truthy and a
raised ValueError propagates. -/
def Language.eqVersionTruthy (version : ℚ) (other : Lang) : Except PyErr Bool :=
  match limit_versions other (.float version) .eq with
  | .ok _ => .ok true
  | .error e => .error e

/-- The comprehension of limit_versions when the limit is an instance:
keep each version whose reflected comparison is truthy, propagating the
first raised exception. -/
def Language.eqFilter (versions : List ℚ) (other : Lang) :
    Except PyErr (List ℚ) :=
  match versions with
  | [] => .ok []
  | v :: vs =>
    match Language.eqVersionTruthy v other with
    | .error e => .error e
    | .ok b =>
      match Language.eqFilter vs other with
      | .error e => .error e
      | .ok rest => .ok (if b then v :: rest else rest)

/-- Language.__eq__ applied to another instance: limit_versions with the
instance as limit.  isinstance(limit, int) is false, so the raw branch
runs with the reflected comparisons of eqFilter. -/
def Language.eqInstance (self other : Lang) : Except PyErr Lang :=
  match Language.eqFilter self.versions other with
  | .error e => .error e
  | .ok versions =>
    if versions.isEmpty then .error (.valueError "No versions left")
    else Language.init self.cls versions

/-- aspectbase.__setattr__ from aspects/base.py: every attribute
assignment on a constructed aspectclass instance raises AttributeError,
whatever the name and value. -/
structure aspectbase where
  tastes : List (String × String)
deriving DecidableEq

/-- aspectbase.__setattr__: unconditionally raises AttributeError. -/
def aspectbase.setattr (_self : aspectbase) (_name : String) (_value : String) :
    Except PyErr aspectbase :=
  .error .attributeError

/-- Attribute assignment on a Language instance: Language.py defines no
__setattr__ hook anywhere in the Language class or its metaclass, so
the default object.__setattr__ applies and the write succeeds. -/
def Language.setattrVersions (self : Lang) (value : List ℚ) :
    Except PyErr Lang :=
  .ok { self with versions := value }

/-- LanguageMeta.__contains__: parse the item (an instance is first
rendered by str), then compare the parsed name case-insensitively
against aliases, qualname and name, and require every parsed version to
be a member of the class versions. -/
def LanguageMeta.contains (cls : LangType) (item : String) : Except PyErr Bool :=
  match parse_lang_str item with
  | .error e => .error e
  | .ok (name, versions) =>
    .ok ((((cls.aliases ++ [cls.qualname, cls.name]).map strLower).contains
        (strLower name)) &&
      (versions.isEmpty ||
        versions.all (fun version => decide (version ∈ cls.versions))))

/-- LanguageMeta.__contains__ on an instance item: parse_lang_str calls
str on its argument, so the instance is tested through its textual
form. -/
def LanguageMeta.containsInst (cls : LangType) (item : Lang) :
    Except PyErr Bool :=
  LanguageMeta.contains cls (Language.str item)

/-- LanguageMeta.__getattr__: scan the registry in registration order
and return the first class containing the item; AttributeError when the
scan is exhausted; an exception from the membership test propagates. -/
def LanguageMeta.getattr (all : List LangType) (item : String) :
    Except PyErr LangType :=
  match all with
  | [] => .error .attributeError
  | lang :: rest =>
    match LanguageMeta.contains lang item with
    | .error e => .error e
    | .ok true => .ok lang
    | .ok false => LanguageMeta.getattr rest item

/-- LanguageMeta.__getitem__, the resolve(text) operation: parse, look
the name up, construct with the parsed versions. -/
def LanguageMeta.getitem (all : List LangType) (item : String) :
    Except PyErr Lang :=
  match parse_lang_str item with
  | .error e => .error e
  | .ok (name, versions) =>
    match LanguageMeta.getattr all name with
    | .error e => .error e
    | .ok cls => Language.init cls versions

/-- The Language decorator (LanguageMeta.__call__ on the base class):
appends the new class, with its version tuple sorted, to the registry. -/
def LanguageMeta.register (all : List LangType) (arg : LangType) :
    List LangType :=
  all ++ [{ arg with versions := List.insertionSort (· ≤ ·) arg.versions }]

/-- Structural instance equality as the spec words it: same Descriptor
Type and identical versions sequence.  Used to compare the behaviour of
the code with the claim of the spec. -/
def specInstanceEq (a b : Lang) : Bool :=
  decide (a.cls = b.cls) && decide (a.versions = b.versions)

/-- First registered class whose lowered name set contains the lowered
identifier: the lookup the spec describes (matching on the name data
only, with no version constraint). -/
def firstNameMatch (all : List LangType) (identifier : String) :
    Option LangType :=
  all.find? (fun cls =>
    (((cls.aliases ++ [cls.qualname, cls.name]).map strLower).contains
      (strLower identifier)))

/-- Shorthand for the decimal version numbers: ver t is t tenths. -/
def ver (tenths : ℤ) : ℚ := Rat.divInt tenths 10

/-- The Python language of the doctests of Language.py. -/
def PythonT : LangType :=
  ⟨"Python", "Python", ["py"], [ver 27, ver 33, ver 34, ver 35, ver 36]⟩

/-- A language whose qualname holds a space, as C++ or Objective C do. -/
def ObjectiveCT : LangType := ⟨"Objective C", "ObjectiveC", [], [ver 33]⟩

/-- A language registered without any versions attribute: the decorator
then stores an empty version tuple. -/
def VersionlessT : LangType := ⟨"Versionless", "Versionless", [], []⟩

/-- A language whose aliases overlap the Python name. -/
def Py3T : LangType := ⟨"Py3", "Py3", ["python"], [ver 36]⟩

/-- The default all-versions Python instance. -/
def pythonDefault : Lang := ⟨PythonT, PythonT.versions⟩

/-! Helper lemmas about construction and version limiting. -/

theorem Language.init_nil (cls : LangType) :
    Language.init cls [] = .ok ⟨cls, cls.versions⟩ := rfl

theorem Language.init_ok (cls : LangType) (vs : List ℚ)
    (hmem : ∀ v ∈ vs, v ∈ cls.versions) (hne : vs ≠ [])
    (hsort : List.Sorted (· ≤ ·) vs) :
    Language.init cls vs = .ok ⟨cls, vs⟩ := by
  have hA : (vs.all fun version => decide (version ∈ cls.versions)) = true := by
    simpa using hmem
  have hB : vs.isEmpty = false := by
    simpa [List.isEmpty_iff] using hne
  simp [Language.init, hA, hB, hsort.insertionSort_eq]

theorem Language.init_versions_ne_nil (cls : LangType) (vs : List ℚ) (r : Lang)
    (hne : vs ≠ []) (h : Language.init cls vs = .ok r) : r.versions ≠ [] := by
  unfold Language.init at h
  by_cases hA : (vs.all fun version => decide (version ∈ cls.versions)) = true
  · rw [if_pos hA] at h
    have hB : vs.isEmpty = false := by simpa [List.isEmpty_iff] using hne
    rw [hB] at h
    simp only [Bool.false_eq_true, if_false, Except.ok.injEq] at h
    subst h
    show List.insertionSort (· ≤ ·) vs ≠ []
    intro hc
    have hperm := List.perm_insertionSort (· ≤ ·) vs
    rw [hc] at hperm
    exact hne hperm.symm.eq_nil
  · rw [if_neg hA] at h
    exact absurd h (by simp)

theorem limitKept_subset (language : Lang) (limit : PyNum) (op : PyOp) :
    ∀ v ∈ limitKept language limit op, v ∈ language.versions := by
  intro v hv
  cases limit <;> exact List.filter_subset' _ hv

theorem limitKept_sorted (language : Lang) (limit : PyNum) (op : PyOp)
    (hsort : List.Sorted (· ≤ ·) language.versions) :
    List.Sorted (· ≤ ·) (limitKept language limit op) := by
  cases limit <;> exact hsort.filter _

theorem limit_versions_eq (language : Lang) (limit : PyNum) (op : PyOp)
    (hmem : ∀ v ∈ language.versions, v ∈ language.cls.versions)
    (hsort : List.Sorted (· ≤ ·) language.versions) :
    limit_versions language limit op =
      if limitKept language limit op = [] then
        .error (.valueError "No versions left")
      else .ok ⟨language.cls, limitKept language limit op⟩ := by
  unfold limit_versions
  by_cases h : limitKept language limit op = []
  · simp [h]
  · have hempty : (limitKept language limit op).isEmpty = false := by
      simpa [List.isEmpty_iff] using h
    rw [hempty, if_neg h]
    simp only [Bool.false_eq_true, if_false]
    exact Language.init_ok _ _
      (fun v hv => hmem v (limitKept_subset language limit op v hv)) h
      (limitKept_sorted language limit op hsort)

theorem limit_versions_cls (language : Lang) (limit : PyNum) (op : PyOp)
    (r : Lang) (h : limit_versions language limit op = .ok r) :
    r.cls = language.cls := by
  unfold limit_versions at h
  by_cases hk : (limitKept language limit op).isEmpty = true
  · rw [hk] at h; exact absurd h (by simp)
  · rw [Bool.not_eq_true] at hk
    rw [hk] at h
    simp only [Bool.false_eq_true, if_false] at h
    unfold Language.init at h
    by_cases hA : ((limitKept language limit op).all
        fun version => decide (version ∈ language.cls.versions)) = true
    · rw [if_pos hA] at h
      by_cases hB : (limitKept language limit op).isEmpty = true
      · rw [hB] at h
        simp only [if_true, Except.ok.injEq] at h
        subst h; rfl
      · rw [Bool.not_eq_true] at hB
        rw [hB] at h
        simp only [Bool.false_eq_true, if_false, Except.ok.injEq] at h
        subst h; rfl
    · rw [if_neg hA] at h
      exact absurd h (by simp)

theorem limit_versions_ok_ne_nil (language : Lang) (limit : PyNum) (op : PyOp)
    (r : Lang) (h : limit_versions language limit op = .ok r) :
    r.versions ≠ [] := by
  unfold limit_versions at h
  by_cases hk : (limitKept language limit op).isEmpty = true
  · rw [hk] at h; exact absurd h (by simp)
  · rw [Bool.not_eq_true] at hk
    rw [hk] at h
    simp only [Bool.false_eq_true, if_false] at h
    exact Language.init_versions_ne_nil _ _ _
      (by simpa [List.isEmpty_iff] using hk) h

/-- C3: On an instance satisfying the instance invariants (versions
sorted ascending and drawn from the class versions), limit_versions
returns exactly the versions for which the operator holds, in the
original order: with an int limit the candidate is truncated with int()
before comparing, with any other numeric limit the raw value is
compared; an empty result raises instead. -/
theorem C3_limit_versions_filters (language : Lang) (limit : PyNum) (op : PyOp)
    (hmem : ∀ v ∈ language.versions, v ∈ language.cls.versions)
    (hsort : List.Sorted (· ≤ ·) language.versions) :
    limit_versions language limit op =
      (let kept := match limit with
        | .int n =>
          language.versions.filter
            (fun version => op.eval ((pyInt version : ℤ) : ℚ) ((n : ℤ) : ℚ))
        | .float q => language.versions.filter (fun version => op.eval version q)
      if kept = [] then .error (.valueError "No versions left")
      else .ok ⟨language.cls, kept⟩) :=
  limit_versions_eq language limit op hmem hsort

/-- C3 witness: the doctest Language.Python == 3 keeps exactly the
versions 3.3, 3.4, 3.5 and 3.6 of the default Python instance. -/
theorem C3_limit_versions_filters_witness :
    limit_versions pythonDefault (.int 3) .eq =
      .ok ⟨PythonT, [ver 33, ver 34, ver 35, ver 36]⟩ := by
  have h := C3_limit_versions_filters pythonDefault (.int 3) .eq
    (by decide) (by decide)
  rw [h]
  decide

/-- C4 counterexample: the claim says every operation producing an
instance with zero versions fails, construction included.  But
Language.__init__ with no explicit versions copies the class versions
unchecked, so a language registered without versions constructs an
instance whose versions sequence is empty, with no error raised. -/
theorem C4_counterexample :
    Language.init VersionlessT [] = .ok ⟨VersionlessT, []⟩ ∧
      (⟨VersionlessT, []⟩ : Lang).versions = [] := by
  constructor <;> rfl

/-- C4 amended: restriction operations never produce an instance with
zero versions: limit_versions raises the No-versions-left ValueError
exactly when the filter keeps nothing, and explicit construction from a
non-empty version list yields a non-empty instance.  Construction with
no explicit versions, however, inherits the class versions, which may
themselves be empty. -/
theorem C4_restriction_never_empty (language : Lang) (limit : PyNum)
    (op : PyOp) (cls : LangType) (vs : List ℚ) :
    (limitKept language limit op = [] →
      limit_versions language limit op =
        .error (.valueError "No versions left")) ∧
    (∀ r, limit_versions language limit op = .ok r → r.versions ≠ []) ∧
    (vs ≠ [] → ∀ r, Language.init cls vs = .ok r → r.versions ≠ []) := by
  refine ⟨fun hk => ?_, fun r h => limit_versions_ok_ne_nil _ _ _ r h,
    fun hne r h => Language.init_versions_ne_nil cls vs r hne h⟩
  unfold limit_versions
  simp [hk]

/-- C4 witness: restricting the default Python instance to versions
above 10 leaves nothing and raises the No-versions-left error, as the
spec example demands. -/
theorem C4_restriction_never_empty_witness :
    limit_versions pythonDefault (.int 10) .gt =
      .error (.valueError "No versions left") :=
  (C4_restriction_never_empty pythonDefault (.int 10) .gt PythonT []).1
    (by decide)

/-- C9: instance relational operators return a new instance of the same
Descriptor Type (the model is pure, so the receiver is untouched by
construction), and the class-level operators construct the default
all-versions instance and delegate to the instance-level operation. -/
theorem C9_compare_same_type_and_delegation (cls : LangType) (limit : PyNum)
    (op : PyOp) :
    LanguageMeta.compareOp cls limit op =
      limit_versions ⟨cls, cls.versions⟩ limit op ∧
    (∀ language r, limit_versions language limit op = .ok r →
      r.cls = language.cls) := by
  constructor
  · unfold LanguageMeta.compareOp
    rw [Language.init_nil]
  · exact fun language r h => limit_versions_cls language limit op r h

/-- C9 witness: at the class level, Python > 3.3 equals the restriction
of the default instance and produces a Python-typed instance. -/
theorem C9_compare_same_type_and_delegation_witness :
    LanguageMeta.compareOp PythonT (.float (ver 33)) .gt =
      limit_versions ⟨PythonT, PythonT.versions⟩ (.float (ver 33)) .gt ∧
    (⟨PythonT, [ver 34, ver 35, ver 36]⟩ : Lang).cls = pythonDefault.cls :=
  ⟨(C9_compare_same_type_and_delegation PythonT (.float (ver 33)) .gt).1,
    (C9_compare_same_type_and_delegation PythonT (.float (ver 33)) .gt).2
      pythonDefault ⟨PythonT, [ver 34, ver 35, ver 36]⟩ (by decide)⟩

/-- C10: limit_versions dispatches the truncation on the runtime type of
the limit, not on its value: with a float limit the raw versions are
compared even when the value is whole, so Python == 3 (int) keeps every
3.x version while Python == 3.0 (float) keeps nothing and raises. -/
theorem C10_truncation_by_type_not_value :
    (∀ (language : Lang) (q : ℚ) (op : PyOp),
      limit_versions language (.float q) op =
        (let kept := language.versions.filter (fun version => op.eval version q)
        if kept.isEmpty then .error (.valueError "No versions left")
        else Language.init language.cls kept)) ∧
    limit_versions pythonDefault (.int 3) .eq =
      .ok ⟨PythonT, [ver 33, ver 34, ver 35, ver 36]⟩ ∧
    limit_versions pythonDefault (.float 3) .eq =
      .error (.valueError "No versions left") :=
  ⟨fun _ _ _ => rfl, by decide, by decide⟩

/-! Lemmas for the instance-equality operator. -/

theorem eqVersionTruthy_mem (v : ℚ) (other : Lang)
    (hinv : ∀ w ∈ other.versions, w ∈ other.cls.versions)
    (h : v ∈ other.versions) :
    Language.eqVersionTruthy v other = .ok true := by
  have hkept : v ∈ limitKept other (.float v) .eq := by
    simp [limitKept, PyOp.eval, h]
  have hne : limitKept other (.float v) .eq ≠ [] := List.ne_nil_of_mem hkept
  have hempty : (limitKept other (.float v) .eq).isEmpty = false := by
    simpa [List.isEmpty_iff] using hne
  have hA : ((limitKept other (.float v) .eq).all
      fun version => decide (version ∈ other.cls.versions)) = true := by
    simp only [List.all_eq_true, decide_eq_true_eq]
    exact fun w hw => hinv w (limitKept_subset other (.float v) .eq w hw)
  have hlv : limit_versions other (.float v) .eq =
      .ok ⟨other.cls,
        List.insertionSort (· ≤ ·) (limitKept other (.float v) .eq)⟩ := by
    unfold limit_versions
    rw [hempty]
    simp only [Bool.false_eq_true, if_false]
    unfold Language.init
    rw [if_pos hA, hempty]
    simp
  unfold Language.eqVersionTruthy
  rw [hlv]

theorem eqVersionTruthy_not_mem (v : ℚ) (other : Lang)
    (h : v ∉ other.versions) :
    Language.eqVersionTruthy v other =
      .error (.valueError "No versions left") := by
  have hkept : limitKept other (.float v) .eq = [] := by
    simp only [limitKept]
    rw [List.filter_eq_nil_iff]
    intro w hw
    simp only [PyOp.eval, decide_eq_true_eq]
    intro he
    exact h (he ▸ hw)
  unfold Language.eqVersionTruthy limit_versions
  rw [hkept]
  rfl

theorem eqFilter_all_mem (versions : List ℚ) (other : Lang)
    (hinv : ∀ w ∈ other.versions, w ∈ other.cls.versions)
    (hall : ∀ v ∈ versions, v ∈ other.versions) :
    Language.eqFilter versions other = .ok versions := by
  induction versions with
  | nil => rfl
  | cons v vs ih =>
    unfold Language.eqFilter
    rw [eqVersionTruthy_mem v other hinv (hall v (by simp))]
    rw [ih (fun w hw => hall w (by simp [hw]))]
    simp

theorem eqFilter_first_missing (versions : List ℚ) (other : Lang)
    (hinv : ∀ w ∈ other.versions, w ∈ other.cls.versions)
    (hbad : ¬ ∀ v ∈ versions, v ∈ other.versions) :
    Language.eqFilter versions other =
      .error (.valueError "No versions left") := by
  induction versions with
  | nil => exact absurd (by simp) hbad
  | cons v vs ih =>
    by_cases hv : v ∈ other.versions
    · have hbad2 : ¬ ∀ w ∈ vs, w ∈ other.versions := by
        intro hc
        refine hbad ?_
        intro w hw
        rcases List.mem_cons.mp hw with h | h
        · exact h ▸ hv
        · exact hc w h
      unfold Language.eqFilter
      rw [eqVersionTruthy_mem v other hinv hv, ih hbad2]
    · unfold Language.eqFilter
      rw [eqVersionTruthy_not_mem v other hv]

/-- C1 counterexample: instance equality is not structural.  Comparing
Python(3.3) with Python(3.3, 3.6) does not return False although their
version sequences differ: Language.__eq__ is limit_versions with the
other instance as limit, and it returns the new truthy instance
Python(3.3). -/
theorem C1_counterexample :
    Language.eqInstance ⟨PythonT, [ver 33]⟩ ⟨PythonT, [ver 33, ver 36]⟩ =
      .ok ⟨PythonT, [ver 33]⟩ ∧
    specInstanceEq ⟨PythonT, [ver 33]⟩ ⟨PythonT, [ver 33, ver 36]⟩ = false := by
  constructor <;> decide

/-- C1 amended: the == operator on instances is version restriction,
not structural equality.  With another instance as the limit, each
receiver version is kept when it occurs in the other instance versions
(the reflected comparison returns a truthy new instance) and the whole
operation returns a new restricted instance; as soon as one receiver
version is absent from the other instance, the reflected comparison
raises the No-versions-left ValueError, which propagates.  A boolean
answering same-type-and-same-versions is never produced. -/
theorem C1_eq_is_restriction (self other : Lang)
    (hself : ∀ v ∈ self.versions, v ∈ self.cls.versions)
    (hsort : List.Sorted (· ≤ ·) self.versions)
    (hne : self.versions ≠ [])
    (hother : ∀ w ∈ other.versions, w ∈ other.cls.versions) :
    ((∀ v ∈ self.versions, v ∈ other.versions) →
      Language.eqInstance self other = .ok ⟨self.cls, self.versions⟩) ∧
    (¬ (∀ v ∈ self.versions, v ∈ other.versions) →
      Language.eqInstance self other =
        .error (.valueError "No versions left")) := by
  constructor
  · intro hall
    unfold Language.eqInstance
    rw [eqFilter_all_mem self.versions other hother hall]
    have hempty : self.versions.isEmpty = false := by
      simpa [List.isEmpty_iff] using hne
    show (if self.versions.isEmpty = true then
        Except.error (PyErr.valueError "No versions left")
      else Language.init self.cls self.versions) =
      .ok ⟨self.cls, self.versions⟩
    rw [hempty]
    simp only [Bool.false_eq_true, if_false]
    exact Language.init_ok self.cls self.versions hself hne hsort
  · intro hbad
    unfold Language.eqInstance
    rw [eqFilter_first_missing self.versions other hother hbad]

/-- C1 witness: the amended characterization applied to Python(3.3)
compared with Python(3.3, 3.6). -/
theorem C1_eq_is_restriction_witness :
    Language.eqInstance ⟨PythonT, [ver 33]⟩ ⟨PythonT, [ver 33, ver 36]⟩ =
      .ok ⟨PythonT, [ver 33]⟩ :=
  (C1_eq_is_restriction ⟨PythonT, [ver 33]⟩ ⟨PythonT, [ver 33, ver 36]⟩
    (by decide) (by decide) (by decide) (by decide)).1 (by decide)

/-- C2 counterexample: setting a field on a constructed Language
instance succeeds, because Language.py installs no __setattr__ hook;
the write even replaces the versions with an empty list.  No
immutability error is raised. -/
theorem C2_counterexample :
    Language.setattrVersions ⟨PythonT, [ver 36]⟩ [] = .ok ⟨PythonT, []⟩ := rfl

/-- C2 amended: post-construction immutability is enforced for
aspectbase instances only, whose __setattr__ raises AttributeError for
every name and value; Language instances have no such protection and
attribute assignment on them succeeds. -/
theorem C2_setattr_split (a : aspectbase) (n v : String) (self : Lang)
    (value : List ℚ) :
    aspectbase.setattr a n v = .error .attributeError ∧
    Language.setattrVersions self value = .ok { self with versions := value } :=
  ⟨rfl, rfl⟩

/-! Lemmas for the parser and the registry. -/

theorem exceptIsOk_ok {ε α : Type} (a : α) :
    (Except.ok a : Except ε α).isOk = true := rfl

theorem exceptIsOk_error {ε α : Type} (e : ε) :
    (Except.error e : Except ε α).isOk = false := rfl

theorem floatList_cons (t : String) (ts : List String) :
    floatList (t :: ts) =
      match pyFloat? t with
      | none =>
        .error (.valueError ("could not convert string to float: " ++ t))
      | some v =>
        match floatList ts with
        | .ok vs => .ok (v :: vs)
        | .error e => .error e := rfl

theorem floatList_isOk (ts : List String) :
    (floatList ts).isOk = ts.all (fun t => (pyFloat? t).isSome) := by
  induction ts with
  | nil => rfl
  | cons t ts ih =>
    rw [floatList_cons, List.all_cons, ← ih]
    cases hf : pyFloat? t with
    | none => simp [exceptIsOk_error]
    | some v =>
      cases hl : floatList ts with
      | ok vs => simp [hl, exceptIsOk_ok]
      | error e => simp [hl, exceptIsOk_error]

theorem contains_parse (cls : LangType) (item name : String) (vs : List ℚ)
    (hp : parse_lang_str item = .ok (name, vs)) :
    LanguageMeta.contains cls item =
      .ok ((((cls.aliases ++ [cls.qualname, cls.name]).map strLower).contains
          (strLower name)) &&
        (vs.isEmpty ||
          vs.all (fun version => decide (version ∈ cls.versions)))) := by
  unfold LanguageMeta.contains
  rw [hp]

theorem parse_lang_str_cons (s name : String) (rest : List String)
    (hsplit : splitCommaWS s = name :: rest) :
    parse_lang_str s =
      match floatList rest with
      | .error e => .error e
      | .ok versions =>
        match rsplit1 name with
        | none => .ok (name, versions)
        | some (shortName, trailing) =>
          match pyFloat? trailing with
          | some version => .ok (shortName, version :: versions)
          | none => .ok (shortName, versions) := by
  unfold parse_lang_str
  rw [hsplit]

/-- C5 counterexample: the first token Objective C has no trailing
number (the token C is not numeric), yet the parsed name is the
shortened Objective rather than the whole first token, because the
rebinding inside the try block survives the failed float conversion. -/
theorem C5_counterexample :
    parse_lang_str "Objective C" = .ok ("Objective", []) ∧
    pyFloat? "C" = none ∧ "Objective" ≠ "Objective C" :=
  ⟨by decide, by decide, by decide⟩

/-- C5 amended: the parser splits on commas with following whitespace,
converts every token after the first to a float (failing exactly when
one of them is not numeric), and splits the first token at its last
whitespace run; when the trailing part parses as a number it is
prepended to the version list and the shortened prefix becomes the
name, but when it does not parse the name is nevertheless the shortened
prefix (the trailing word is silently dropped). -/
theorem C5_parse_characterization (s name : String) (rest : List String)
    (hsplit : splitCommaWS s = name :: rest) :
    ((parse_lang_str s).isOk = rest.all (fun t => (pyFloat? t).isSome)) ∧
    (∀ vs, floatList rest = .ok vs →
      parse_lang_str s = .ok (match rsplit1 name with
        | none => (name, vs)
        | some (shortName, trailing) =>
          match pyFloat? trailing with
          | some version => (shortName, version :: vs)
          | none => (shortName, vs))) := by
  constructor
  · rw [parse_lang_str_cons s name rest hsplit, ← floatList_isOk]
    cases hl : floatList rest with
    | error e => rfl
    | ok vs =>
      cases hr : rsplit1 name with
      | none => rfl
      | some p =>
        cases p with
        | mk shortName trailing =>
          show (match pyFloat? trailing with
            | some version => Except.ok (shortName, version :: vs)
            | none => Except.ok (shortName, vs)).isOk = (Except.ok vs).isOk
          cases pyFloat? trailing <;> rfl
  · intro vs hvs
    rw [parse_lang_str_cons s name rest hsplit, hvs]
    cases hr : rsplit1 name with
    | none => rfl
    | some p =>
      cases p with
      | mk shortName trailing =>
        show (match pyFloat? trailing with
          | some version => Except.ok (shortName, version :: vs)
          | none => Except.ok (shortName, vs)) =
          Except.ok (match pyFloat? trailing with
          | some version => (shortName, version :: vs)
          | none => (shortName, vs))
        cases pyFloat? trailing <;> rfl

/-- C5 witness: the doctest inputs.  Objective C 3.6, 3.3 parses to the
two-word name with both versions, and Cobol, stupid! fails because
stupid! is not numeric. -/
theorem C5_parse_characterization_witness :
    parse_lang_str "Objective C 3.6, 3.3" =
      .ok ("Objective C", [ver 36, ver 33]) ∧
    (parse_lang_str "Cobol, stupid!").isOk = false := by
  constructor
  · have h := (C5_parse_characterization "Objective C 3.6, 3.3"
      "Objective C 3.6" ["3.3"] (by decide)).2 [ver 33] (by decide)
    rw [h]
    decide
  · have h := (C5_parse_characterization "Cobol, stupid!" "Cobol"
      ["stupid!"] (by decide)).1
    rw [h]
    decide

theorem getattr_name_only (all : List LangType) (item : String)
    (hp : parse_lang_str item = .ok (item, [])) :
    LanguageMeta.getattr all item =
      match firstNameMatch all item with
      | some cls => .ok cls
      | none => .error .attributeError := by
  induction all with
  | nil => rfl
  | cons cls rest ih =>
    unfold LanguageMeta.getattr firstNameMatch
    rw [contains_parse cls item item [] hp]
    simp only [List.isEmpty_nil, Bool.true_or, Bool.and_true]
    by_cases hP : (((cls.aliases ++ [cls.qualname, cls.name]).map
        strLower).contains (strLower item)) = true
    · rw [List.find?_cons, hP]
    · rw [Bool.not_eq_true] at hP
      rw [List.find?_cons, hP]
      unfold firstNameMatch at ih
      exact ih

/-- C6 counterexample: name lookup does not require the identifier to
equal a registered name or alias.  The identifier Python 3.6 matches no
name of the registry (firstNameMatch is the lookup the claim words),
yet __getattr__ resolves it to the Python class, because the membership
test parses the identifier into a name and versions first. -/
theorem C6_counterexample :
    LanguageMeta.getattr [PythonT] "Python 3.6" = .ok PythonT ∧
    firstNameMatch [PythonT] "Python 3.6" = none :=
  ⟨by decide, by decide⟩

/-- C6 amended: for identifiers that parse to themselves with no
versions (no comma and no whitespace inside), lookup returns the first
registered class, in registration order, whose lowered aliases,
qualname or name contain the lowered identifier, and raises
AttributeError when none does; lookup of PYTHON and of python agree.
For identifiers containing whitespace or commas the parser first
extracts a name and version constraints and lookup matches on those
instead. -/
theorem C6_lookup_first_name_match (all : List LangType) (item : String)
    (hp : parse_lang_str item = .ok (item, [])) :
    (LanguageMeta.getattr all item =
      match firstNameMatch all item with
      | some cls => .ok cls
      | none => .error .attributeError) ∧
    LanguageMeta.getattr all "PYTHON" = LanguageMeta.getattr all "python" := by
  refine ⟨getattr_name_only all item hp, ?_⟩
  have h1 := getattr_name_only all "PYTHON" (by decide)
  have h2 := getattr_name_only all "python" (by decide)
  rw [h1, h2]
  have hl : strLower "PYTHON" = strLower "python" := by decide
  simp only [firstNameMatch, hl]

/-- C6 witness: with Py3 (alias python) registered before Python, the
lowercase lookup returns the first matching class Py3. -/
theorem C6_lookup_first_name_match_witness :
    LanguageMeta.getattr [Py3T, PythonT] "python" = .ok Py3T := by
  have h := (C6_lookup_first_name_match [Py3T, PythonT] "python"
    (by decide)).1
  rw [h]
  decide

/-- C7 counterexample: the candidate string Objective C names the
Objective C descriptor type exactly (ignoring case) and carries no
version constraint, so the claim says membership holds; but the
membership test parses the candidate, the parser drops the trailing
word C, and the lookup of the mangled name Objective fails. -/
theorem C7_counterexample :
    LanguageMeta.contains ObjectiveCT "Objective C" = .ok false ∧
    strLower "Objective C" = strLower ObjectiveCT.qualname :=
  ⟨by decide, by decide⟩

/-- C7 amended: membership is decided on the PARSED candidate: the
parsed name must occur, ignoring case, among the aliases, qualname and
name of the descriptor type, and every parsed version must be a member
of the type versions (no parsed versions means no constraint).  An
instance candidate is rendered by str first, so only its type qualname
and its own versions take part, never its aliases; a multi-word
candidate without a trailing number loses its last word to the parser. -/
theorem C7_contains_characterization (cls : LangType) (item name : String)
    (vs : List ℚ) (hp : parse_lang_str item = .ok (name, vs)) :
    LanguageMeta.contains cls item = .ok true ↔
      ((strLower name) ∈ (cls.aliases ++ [cls.qualname, cls.name]).map strLower
        ∧ (vs = [] ∨ ∀ v ∈ vs, v ∈ cls.versions)) := by
  rw [contains_parse cls item name vs hp]
  simp [List.isEmpty_iff, List.all_eq_true]

/-- C7 witness: Python with no version constraint is in the Python
type; Python 2.6 is not, because 2.6 lies outside the version range. -/
theorem C7_contains_characterization_witness :
    LanguageMeta.contains PythonT "Python" = .ok true ∧
    ¬ LanguageMeta.contains PythonT "Python 2.6" = .ok true := by
  constructor
  · exact (C7_contains_characterization PythonT "Python" "Python" []
      (by decide)).mpr (by decide)
  · intro h
    have h2 := (C7_contains_characterization PythonT "Python 2.6" "Python"
      [ver 26] (by decide)).mp h
    revert h2
    decide

/-- C8 counterexample: the versionless registered type constructs an
instance (so the claim quantifies over it), but resolving the textual
form of that instance fails with AttributeError instead of reproducing
an equal instance: its rendered form keeps a trailing space that the
name lookup cannot match. -/
theorem C8_counterexample :
    Language.init VersionlessT [] = .ok ⟨VersionlessT, []⟩ ∧
    LanguageMeta.getitem [VersionlessT] (Language.str ⟨VersionlessT, []⟩) =
      .error .attributeError :=
  ⟨by decide, by decide⟩

/-- C8 amended: the round trip holds for well-formed instances whose
textual form parses back to the type qualname with the instance
versions (in particular the versions are non-empty and the qualname is
a single word) and whose type is the class the registry lookup returns
for that qualname: resolving str(instance) then reproduces a
structurally equal instance. -/
theorem C8_roundtrip (all : List LangType) (inst : Lang)
    (hne : inst.versions ≠ [])
    (hsort : List.Sorted (· ≤ ·) inst.versions)
    (hmem : ∀ v ∈ inst.versions, v ∈ inst.cls.versions)
    (hparse : parse_lang_str (Language.str inst) =
      .ok (inst.cls.qualname, inst.versions))
    (hlookup : LanguageMeta.getattr all inst.cls.qualname = .ok inst.cls) :
    LanguageMeta.getitem all (Language.str inst) = .ok inst := by
  simp only [LanguageMeta.getitem, hparse, hlookup]
  rw [Language.init_ok inst.cls inst.versions hmem hne hsort]

/-- C8 witness: resolving the textual form of Python(3.4, 3.6) against
the registry holding Python reproduces the instance. -/
theorem C8_roundtrip_witness :
    LanguageMeta.getitem [PythonT] (Language.str ⟨PythonT, [ver 34, ver 36]⟩) =
      .ok ⟨PythonT, [ver 34, ver 36]⟩ :=
  C8_roundtrip [PythonT] ⟨PythonT, [ver 34, ver 36]⟩ (by decide) (by decide)
    (by decide) (by decide) (by decide)
